import Mathlib

set_option linter.unusedVariables false

/-! Shallow embedding of the coco-viewer annotation compositing core
(`src/cocoviewer.py` and `src/app.py`): Python-level primitives, the COCO data
model, category color assignment, circular image navigation, and image
composition, followed by theorems settling the specification claims.

Python floats are modelled by exact rationals, Python lists by `List`,
Python dicts by insertion-ordered association lists with last-write-wins
update, and the process-global `random` module by an explicit abstract
PRNG state threaded through the functions that touch it.  `random.seed(42)`
puts the PRNG in one fixed state; `random.seed(None)` puts it in a state
derived from OS entropy, modelled as an extra input.  `random.shuffle` is
modelled as a deterministic Fisher-Yates walk over that state (the exact
pseudo-random stream is opaque; every claim below depends only on the
stream being a function of the seed, never on particular values). -/

/-- Python exception kinds that the embedded code can raise, together with
the typed error names used by the specification's error taxonomy (the latter
never occur in the source). -/
inductive PyError where
  | indexError
  | keyError
  | fileNotFoundError
  | emptyCollectionError
  | imageNotFoundError
  | unknownCategoryError
  deriving DecidableEq, Repr

deriving instance DecidableEq for Except

/-- Python index normalisation: a negative index counts from the end. -/
def pyNorm (len : Nat) (i : Int) : Int :=
  if i < 0 then (len : Int) + i else i

/-- Python list subscription `xs[i]`: negative indices count from the end,
out-of-range access raises IndexError. -/
def pyIndex {α : Type} (xs : List α) (i : Int) : Except PyError α :=
  if h : 0 ≤ pyNorm xs.length i ∧ pyNorm xs.length i < (xs.length : Int) then
    .ok (xs.get ⟨(pyNorm xs.length i).toNat, by omega⟩)
  else
    .error .indexError

/-- Python `int()` applied to a rational: truncation toward zero. -/
def pyInt (q : ℚ) : Int :=
  if q < 0 then ⌈q⌉ else ⌊q⌋

/-- Insertion into a Python dict modelled as an association list: an existing
key keeps its position and gets the new value, a new key is appended. -/
def pyDictInsert {α : Type} (d : List (Int × α)) (k : Int) (v : α) : List (Int × α) :=
  if d.any (fun p => p.1 == k) then
    d.map (fun p => if p.1 == k then (k, v) else p)
  else
    d ++ [(k, v)]

/-- Python `dict(pairs)`: fold the pairs into an insertion-ordered dict. -/
def pyDict {α : Type} (l : List (Int × α)) : List (Int × α) :=
  l.foldl (fun d p => pyDictInsert d p.1 p.2) []

/-- Python `d[k]` as a partial lookup (`none` when the key is absent). -/
def pyDictGet {α : Type} (d : List (Int × α)) (k : Int) : Option α :=
  (d.find? (fun p => p.1 == k)).map (fun p => p.2)

/-- Python `d[k]`: a missing key raises KeyError. -/
def pyDictGetExc {α : Type} (d : List (Int × α)) (k : Int) : Except PyError α :=
  match pyDictGet d k with
  | some v => .ok v
  | none => .error .keyError

/-- Whether a string starts with the path separator. -/
def strStartsWithSlash (s : String) : Bool :=
  match s.toList with
  | c :: _ => c == '/'
  | [] => false

/-- Whether a string ends with the path separator. -/
def strEndsWithSlash (s : String) : Bool :=
  match s.toList.getLast? with
  | some c => c == '/'
  | none => false

/-- POSIX `os.path.join` for the two-argument uses in the source. -/
def os_path_join (dir name : String) : String :=
  if strStartsWithSlash name then name
  else if dir = "" then name
  else if strEndsWithSlash dir then dir ++ name
  else dir ++ "/" ++ name

/-- Abstract state of the process-global `random` module. -/
structure RandomState where
  state : Nat
  deriving DecidableEq, Repr

/-- `random.seed(n)` with an integer: the PRNG state is a function of `n`. -/
def pySeed (n : Nat) : RandomState := ⟨n⟩

/-- `random.seed(None)`: the PRNG state is derived from OS entropy, which the
embedding takes as an explicit input. -/
def pySeedNone (entropy : Nat) : RandomState := ⟨entropy⟩

/-- One step of the abstract pseudo-random stream (a 64-bit LCG stands in for
the opaque stdlib generator; only determinism matters to the claims). -/
def lcgNext (s : Nat) : Nat :=
  (6364136223846793005 * s + 1442695040888963407) % 18446744073709551616

/-- Swap two positions of a list (no-op when either index is out of range). -/
def listSwap {α : Type} (xs : List α) (i j : Nat) : List α :=
  match xs.get? i, xs.get? j with
  | some a, some b => (xs.set i b).set j a
  | _, _ => xs

/-- The Fisher-Yates loop of `random.shuffle`: at fuel `i + 1` the element at
position `i + 1` is swapped with a drawn position `j ≤ i + 1`. -/
def shuffleSteps {α : Type} : Nat → Nat → List α → List α × Nat
  | 0, s, xs => (xs, s)
  | i + 1, s, xs => shuffleSteps i (lcgNext s) (listSwap xs (i + 1) (lcgNext s % (i + 2)))

/-- `random.shuffle(xs)` under the abstract PRNG: a deterministic permutation
of `xs` that is a function of the PRNG state, which it also advances. -/
def pyShuffle {α : Type} (xs : List α) (r : RandomState) : List α × RandomState :=
  let p := shuffleSteps (xs.length - 1) r.state xs
  (p.1, ⟨p.2⟩)

/-- `colorsys.hsv_to_rgb` over exact rationals (float rounding is modelled by
exact real arithmetic; `int()` truncation happens at the callers). -/
def hsv_to_rgb (h s v : ℚ) : ℚ × ℚ × ℚ :=
  if s = 0 then (v, v, v)
  else
    let i : Int := pyInt (h * 6)
    let f : ℚ := h * 6 - (i : ℚ)
    let p : ℚ := v * (1 - s)
    let q : ℚ := v * (1 - s * f)
    let t : ℚ := v * (1 - s * (1 - f))
    let im : Int := i % 6
    if im = 0 then (v, t, p)
    else if im = 1 then (q, v, p)
    else if im = 2 then (p, q, t)
    else if im = 3 then (p, t, v)
    else if im = 4 then (t, p, q)
    else (v, p, q)

/-- An 8-bit RGB triple as produced by `int(channel * 255)`. -/
abbrev PyColor := Int × Int × Int

/-- A polygon or run-length-encoded segmentation from the annotation record. -/
inductive PySeg where
  | poly (parts : List (List ℚ))
  | rle
  deriving DecidableEq, Repr

/-- One entry of the record's `annotations` list (the fields the code reads). -/
structure CocoAnnotation where
  image_id : Int
  category_id : Int
  bbox : ℚ × ℚ × ℚ × ℚ
  segmentation : PySeg
  deriving DecidableEq, Repr

/-- One entry of the record's `categories` list. -/
structure CocoCategory where
  id : Int
  name : String
  deriving DecidableEq, Repr

/-- One entry of the record's `images` list. -/
structure CocoImage where
  id : Int
  file_name : String
  deriving DecidableEq, Repr

/-- The parsed COCO annotation record (`instances` in the source). -/
structure CocoInstances where
  images : List CocoImage
  annotations : List CocoAnnotation
  categories : List CocoCategory
  deriving DecidableEq, Repr

/-- `get_images`: all image ids and file names, in record order. -/
def get_images (instances : CocoInstances) : List (Int × String) :=
  instances.images.map (fun image => (image.id, image.file_name))

/-- The per-image object list (`[obj for obj in annotations if obj["image_id"] == img_id]`,
line 66 of cocoviewer.py). -/
def imageObjects (instances : CocoInstances) (img_id : Int) : List CocoAnnotation :=
  instances.annotations.filter (fun obj => obj.image_id == img_id)

/-- The category-id-to-(name, color) mapping built by `get_categories`
(cocoviewer.py lines 129-142): an 80-hue palette is converted to 8-bit RGB,
shuffled under seed 42, the PRNG is reseeded from OS entropy, and the
category id/name pairs are zipped with the shuffled colors into a dict. -/
def get_categories (instances : CocoInstances) (r : RandomState) (entropy : Nat) :
    List (Int × (String × PyColor)) × RandomState :=
  let hsv_tuples := (List.range 80).map (fun x : Nat => ((x : ℚ) / 80, (1 : ℚ), (1 : ℚ)))
  let colors1 := hsv_tuples.map (fun x => hsv_to_rgb x.1 x.2.1 x.2.2)
  let colors2 := colors1.map (fun x => (pyInt (x.1 * 255), pyInt (x.2.1 * 255), pyInt (x.2.2 * 255)))
  let r1 := pySeed 42
  let sc := pyShuffle colors2 r1
  let r3 := pySeedNone entropy
  let categories := List.zip (instances.categories.map (fun c => (c.id, c.name))) sc.1
  (pyDict (categories.map (fun cat => (cat.1.1, (cat.1.2, cat.2)))), r3)

/-- `App.get_categories` from `src/app.py` (lines 66-79): textually the same
algorithm as `get_categories` in cocoviewer.py. -/
def App_get_categories (instances : CocoInstances) (r : RandomState) (entropy : Nat) :
    List (Int × (String × PyColor)) × RandomState :=
  let hsv_tuples := (List.range 80).map (fun x : Nat => ((x : ℚ) / 80, (1 : ℚ), (1 : ℚ)))
  let colors1 := hsv_tuples.map (fun x => hsv_to_rgb x.1 x.2.1 x.2.2)
  let colors2 := colors1.map (fun x => (pyInt (x.1 * 255), pyInt (x.2.1 * 255), pyInt (x.2.2 * 255)))
  let r1 := pySeed 42
  let sc := pyShuffle colors2 r1
  let r3 := pySeedNone entropy
  let categories := List.zip (instances.categories.map (fun c => (c.id, c.name))) sc.1
  (pyDict (categories.map (fun cat => (cat.1.1, (cat.1.2, cat.2)))), r3)

/-- CategoryColorAssigner written from the specification's own words
(spec section 4.2, steps 1-4): generate 80 evenly spaced hues at saturation 1
and value 1, convert each by standard HSV-to-RGB conversion truncating each
channel to an integer, shuffle under the fixed seed 42, reseed the random
source from OS entropy, and zip the category id/name pairs in declaration
order with the first `len(categoryList)` shuffled colors into the mapping. -/
def specAssignColors (categoryList : List CocoCategory) (entropy : Nat) :
    List (Int × (String × PyColor)) × RandomState :=
  let palette := (List.range 80).map (fun k : Nat => ((k : ℚ) / 80, (1 : ℚ), (1 : ℚ)))
  let rgb := palette.map (fun t =>
    let c := hsv_to_rgb t.1 t.2.1 t.2.2
    (pyInt (c.1 * 255), pyInt (c.2.1 * 255), pyInt (c.2.2 * 255)))
  let shuffled := (pyShuffle rgb (pySeed 42)).1
  let rOut := pySeedNone entropy
  let pairs := categoryList.map (fun c => (c.id, c.name))
  let zipped := List.zip pairs (shuffled.take pairs.length)
  (pyDict (zipped.map (fun cat => (cat.1.1, (cat.1.2, cat.2)))), rOut)

/-- The `ImageList` navigator state (cocoviewer.py lines 201-230). -/
structure ImageList (α : Type) where
  image_list : List α
  n : Int
  max : Nat
  deriving DecidableEq, Repr

/-- `ImageList.__init__`: position starts at -1 (`images or []` is `images`
itself whenever `images` is a list). -/
def ImageList.init {α : Type} (images : List α) : ImageList α :=
  ⟨images, -1, images.length⟩

/-- `ImageList.next`: increment the position, wrapping to 0 when it reaches
`max`; the position is updated before the (possibly raising) subscription. -/
def ImageList.next {α : Type} (s : ImageList α) : Except PyError α × ImageList α :=
  let n1 := s.n + 1
  if n1 < (s.max : Int) then
    (pyIndex s.image_list n1, { s with n := n1 })
  else
    (pyIndex s.image_list 0, { s with n := 0 })

/-- `ImageList.prev`: wrap to `max - 1` when the position is 0, otherwise
decrement; the position is updated before the (possibly raising) subscription. -/
def ImageList.prev {α : Type} (s : ImageList α) : Except PyError α × ImageList α :=
  if s.n = 0 then
    (pyIndex s.image_list ((s.max : Int) - 1), { s with n := (s.max : Int) - 1 })
  else
    (pyIndex s.image_list (s.n - 1), { s with n := s.n - 1 })

/-- `k + 1` consecutive `next()` calls, keeping the last returned value. -/
def ImageList.nextRun {α : Type} (s : ImageList α) : Nat → Except PyError α × ImageList α
  | 0 => s.next
  | k + 1 => (s.next.2).nextRun k

/-- `k + 1` consecutive `prev()` calls, keeping the last returned value. -/
def ImageList.prevRun {α : Type} (s : ImageList α) : Nat → Except PyError α × ImageList α
  | 0 => s.prev
  | k + 1 => (s.prev.2).prevRun k

/-- A decoded raster image; only its dimensions are observable to the core. -/
structure PyImage where
  width : Nat
  height : Nat
  deriving DecidableEq, Repr

/-- One PIL drawing call recorded on the transparent overlay layer. -/
inductive DrawOp where
  | rectOutline (b : ℚ × ℚ × ℚ × ℚ) (outline : PyColor) (width : Int)
  | rectFill (b : ℚ × ℚ × ℚ × ℚ) (fill : PyColor)
  | textOp (xy : ℚ × ℚ) (text : String) (fill : PyColor)
  | polygonOp (points : List ℚ) (outline : PyColor × Int) (fill : PyColor × Int)
  deriving DecidableEq, Repr

/-- The result of `Image.alpha_composite(img_open, draw_layer)`: the base
image together with the overlay's recorded drawing operations. -/
structure ComposedImage where
  base : PyImage
  ops : List DrawOp
  deriving DecidableEq, Repr

/-- The label-box placement and clamping arithmetic of `draw_bboxes`
(cocoviewer.py lines 158-179); `ts` models `draw.textsize(text, font)`. -/
def labelOps (ts : String → Int → ℚ × ℚ) (c : String × PyColor) (b : ℚ × ℚ × ℚ × ℚ)
    (label_size : Int) : List DrawOp :=
  let text := c.1
  let tw := (ts text label_size).1
  let th := (ts text label_size).2
  let tx0 := b.1
  let ty0 := b.2.1 - th
  let tx0 := if tx0 < 0 then max b.1 (max b.1 tx0) else tx0
  let ty0 := if ty0 < 0 then max b.2.1 (max 0 ty0) else ty0
  let tx1 := tx0 + tw
  let ty1 := ty0 + th
  let moved := if tx1 > b.2.2.1 then
      (max 0 (tx0 - (tx1 - b.2.2.1)), if max 0 (tx0 - (tx1 - b.2.2.1)) = 0 then tw else b.2.2.1)
    else (tx0, tx1)
  [DrawOp.rectFill (moved.1, ty0, moved.2, ty1) c.2,
   DrawOp.textOp (moved.1, ty0) text (255, 255, 255)]

/-- `draw_bboxes` (cocoviewer.py lines 145-179): bbox corner lists are derived
as `(x, y, x + w, y + h)`, then every enumerated object outside `ignore` gets
an outlined rectangle followed, when labels are on, by its label box. -/
def draw_bboxes (ts : String → Int → ℚ × ℚ) (objects : List CocoAnnotation) (labels : Bool)
    (obj_categories : List (String × PyColor)) (ignore : List Nat) (width : Int)
    (label_size : Int) : List DrawOp :=
  let bboxes := objects.map (fun obj =>
    (obj.bbox.1, obj.bbox.2.1, obj.bbox.1 + obj.bbox.2.2.1, obj.bbox.2.1 + obj.bbox.2.2.2))
  ((obj_categories.zip bboxes).enum.map (fun icb =>
    if icb.1 ∈ ignore then []
    else DrawOp.rectOutline icb.2.2 icb.2.1.2 width ::
      (if labels then labelOps ts icb.2.1 icb.2.2 label_size else []))).flatten

/-- `draw_masks` (cocoviewer.py lines 182-198): every enumerated object
outside `ignore` with a polygonal segmentation contributes its first polygon
part filled and outlined with the category color at the given alpha; an
encoded (RLE) segmentation is skipped; `m[0]` on an empty polygon list
raises IndexError. -/
def draw_masks (objects : List CocoAnnotation) (obj_categories : List (String × PyColor))
    (ignore : List Nat) (alpha : Int) : Except PyError (List DrawOp) :=
  let masks := objects.map (fun obj => obj.segmentation)
  (obj_categories.zip masks).enum.foldlM (fun acc icm =>
    if icm.1 ∈ ignore then pure acc
    else
      match icm.2.2 with
      | .poly [] => .error .indexError
      | .poly (p :: _) =>
        pure (acc ++ [DrawOp.polygonOp p (icm.2.1.2, alpha) (icm.2.1.2, alpha)])
      | .rle => pure acc) []

/-- Python `sorted(list(set(l)))`: the ascending list of distinct elements. -/
def sortedUnique (l : List Int) : List Int :=
  List.insertionSort (fun a b => a ≤ b) l.dedup

/-- The `names_colors` comprehension `[self.categories[i] for i in ids]`
(cocoviewer.py line 73): left-to-right lookups, raising KeyError at the first
missing category id. -/
def lookupColors (cats : List (Int × (String × PyColor))) :
    List Int → Except PyError (List (String × PyColor))
  | [] => .ok []
  | i :: rest =>
    match pyDictGet cats i with
    | none => .error .keyError
    | some v =>
      match lookupColors cats rest with
      | .error e => .error e
      | .ok vs => .ok (v :: vs)

/-- The mutable state of the `Data` object (cocoviewer.py lines 24-101). -/
structure DataState where
  image_dir : String
  instances : CocoInstances
  images : ImageList (Int × String)
  categories : List (Int × (String × PyColor))
  img_obj_categories : Option (List Int)
  img_categories : Option (List Int)
  current_image : Int × String
  current_composed_image : Option ComposedImage
  deriving DecidableEq, Repr

/-- `Data.__init__`: parse the record, build the navigator and the category
color table, and advance the navigator once so the first image is current
(an empty image list makes that first `next()` raise). -/
def Data.init (image_dir : String) (instances : CocoInstances) (r : RandomState)
    (entropy : Nat) : Except PyError DataState :=
  let images0 := ImageList.init (get_images instances)
  let categories := (get_categories instances r entropy).1
  let first := images0.next
  match first.1 with
  | .error e => .error e
  | .ok img =>
    .ok ⟨image_dir, instances, first.2, categories, none, none, img, none⟩

/-- `Data.compose_image` (cocoviewer.py lines 41-86): open the backing file,
record the per-image category data, look up the objects' styles, draw masks
then boxes on the overlay, and store the alpha-composited result.  State
mutations happen in source order, so a failure leaves exactly the fields
assigned before the raising statement updated. -/
def Data.compose_image (fs : String → Option PyImage) (ts : String → Int → ℚ × ℚ)
    (d : DataState) (image : Int × String) (bboxes_on labels_on masks_on : Bool)
    (ignoreArg : Option (List Nat)) (width alpha label_size : Int) :
    Except PyError Unit × DataState :=
  let full_path := os_path_join d.image_dir image.2
  let ignore := ignoreArg.getD []
  match fs full_path with
  | none => (.error .fileNotFoundError, d)
  | some img_open =>
    let objects := imageObjects d.instances image.1
    let obj_categories_ids := objects.map (fun obj => obj.category_id)
    let d1 := { d with img_obj_categories := some obj_categories_ids,
                       img_categories := some (sortedUnique obj_categories_ids) }
    match lookupColors d.categories obj_categories_ids with
    | .error e => (.error e, d1)
    | .ok names_colors =>
      match (if masks_on then draw_masks objects names_colors ignore alpha else .ok []) with
      | .error e => (.error e, d1)
      | .ok mask_ops =>
        let bbox_ops :=
          if bboxes_on then draw_bboxes ts objects labels_on names_colors ignore width label_size
          else []
        (.ok (), { d1 with current_composed_image := some ⟨img_open, mask_ops ++ bbox_ops⟩ })

/-- `Data.next_image` (cocoviewer.py lines 91-95): advance the navigator,
set the returned entry as the current image, then recompose.  Both the
cursor and `current_image` are updated before composition can fail. -/
def Data.next_image (fs : String → Option PyImage) (ts : String → Int → ℚ × ℚ)
    (d : DataState) (bboxes_on labels_on masks_on : Bool) (ignoreArg : Option (List Nat))
    (width alpha label_size : Int) : Except PyError Unit × DataState :=
  let stepped := d.images.next
  match stepped.1 with
  | .error e => (.error e, { d with images := stepped.2 })
  | .ok img =>
    Data.compose_image fs ts { d with images := stepped.2, current_image := img } img
      bboxes_on labels_on masks_on ignoreArg width alpha label_size

/-- `Data.previous_image` (cocoviewer.py lines 97-101). -/
def Data.previous_image (fs : String → Option PyImage) (ts : String → Int → ℚ × ℚ)
    (d : DataState) (bboxes_on labels_on masks_on : Bool) (ignoreArg : Option (List Nat))
    (width alpha label_size : Int) : Except PyError Unit × DataState :=
  let stepped := d.images.prev
  match stepped.1 with
  | .error e => (.error e, { d with images := stepped.2 })
  | .ok img =>
    Data.compose_image fs ts { d with images := stepped.2, current_image := img } img
      bboxes_on labels_on masks_on ignoreArg width alpha label_size

/-- The ignore-set computation of `Controller.update_img` (cocoviewer.py
lines 410-413): no selection means nothing is ignored, otherwise every
object index outside the selection is ignored. -/
def updateImgIgnore (img_obj_categories : List Int) (selected_objs : Option (List Nat)) :
    List Nat :=
  match selected_objs with
  | none => []
  | some sel => (List.range img_obj_categories.length).filter (fun i => ¬ i ∈ sel)

/-- The selected-object expansion of `Controller.select_category`
(cocoviewer.py lines 531-536): for each selected category-listbox index,
collect every object index whose category equals that category. -/
def selectCategoryObjs (img_categories img_obj_categories : List Int)
    (selected_cats : List Nat) : Except PyError (List Nat) :=
  selected_cats.foldlM (fun acc (ci : Nat) =>
    match pyIndex img_categories (ci : Int) with
    | .error e => .error e
    | .ok c =>
      .ok (acc ++ (img_obj_categories.enum.filterMap (fun io =>
        if c = io.2 then some io.1 else none)))) []

/-- The selected-category reflection of `Controller.select_object`
(cocoviewer.py lines 556-561): for each selected object index, collect every
category-listbox index whose category equals that object's category. -/
def selectObjectCats (img_categories img_obj_categories : List Int)
    (selected_objs : List Nat) : Except PyError (List Nat) :=
  selected_objs.foldlM (fun acc (oi : Nat) =>
    match pyIndex img_obj_categories (oi : Int) with
    | .error e => .error e
    | .ok o =>
      .ok (acc ++ (img_categories.enum.filterMap (fun ic =>
        if o = ic.2 then some ic.1 else none)))) []

/-- A concrete two-image record for exercising navigation failures. -/
def exInstances9 : CocoInstances := ⟨[⟨1, "a"⟩, ⟨2, "b"⟩], [], []⟩

/-- A file system containing only the first image's backing file. -/
def exFs9 : String → Option PyImage := fun p => if p = "imgs/a" then some ⟨4, 3⟩ else none

/-- A fixed text-measure model standing in for `draw.textsize`. -/
def exTs : String → Int → ℚ × ℚ := fun _ _ => (10, 5)

/-- The Data state over `exInstances9` after startup and one successful
composition of the first image. -/
def exD9 : DataState :=
  ⟨"imgs", exInstances9, ⟨[(1, "a"), (2, "b")], 0, 2⟩, [], some [], some [], (1, "a"),
   some ⟨⟨4, 3⟩, []⟩⟩

/-- The annotation of the claim C7 scenario: image 1, category 7,
bbox [10, 10, 50, 50]. -/
def exAnn7 : CocoAnnotation := ⟨1, 7, (10, 10, 50, 50), .rle⟩

/-- The claim C7 scenario record: one image, one category, one annotation. -/
def exInstances7 : CocoInstances := ⟨[⟨1, "a.jpg"⟩], [exAnn7], [⟨7, "cat"⟩]⟩

/-- A file system holding the C7 scenario's backing image file. -/
def exFs7 : String → Option PyImage := fun p => if p = "imgs/a.jpg" then some ⟨100, 100⟩ else none

/-- The Data state over `exInstances7` at startup (first image current). -/
def exD7 : DataState :=
  ⟨"imgs", exInstances7, ⟨[(1, "a.jpg")], 0, 1⟩, (get_categories exInstances7 ⟨0⟩ 0).1,
   none, none, (1, "a.jpg"), none⟩

/-- The style (name and palette color) assigned to category 7 in `exD7`. -/
def exStyle7 : String × PyColor := (pyDictGet exD7.categories 7).getD ("", (0, 0, 0))

/-! ## Helper lemmas about the embedded primitives -/

theorem pyIndex_natCast {α : Type} (xs : List α) (m : Nat) (h : m < xs.length) :
    pyIndex xs (m : Int) = .ok (xs.get ⟨m, h⟩) := by
  have hn : pyNorm xs.length (m : Int) = (m : Int) := by simp [pyNorm]
  have hcond : 0 ≤ pyNorm xs.length (m : Int) ∧ pyNorm xs.length (m : Int) < (xs.length : Int) := by
    rw [hn]; omega
  rw [pyIndex, dif_pos hcond]
  have ht : (pyNorm xs.length (m : Int)).toNat = m := by rw [hn]; omega
  exact congrArg Except.ok (congrArg xs.get (Fin.ext ht))

theorem image_list_next_at {α : Type} (l : List α) (p : Nat) (hp : p < l.length) :
    ImageList.next ⟨l, (p : Int), l.length⟩ =
      (.ok (l.get ⟨(p + 1) % l.length, Nat.mod_lt _ (by omega)⟩),
       ⟨l, (((p + 1) % l.length : Nat) : Int), l.length⟩) := by
  have hpos : 0 < l.length := by omega
  simp only [ImageList.next]
  split
  · next h =>
    have hlt : p + 1 < l.length := by omega
    have hmod : (p + 1) % l.length = p + 1 := Nat.mod_eq_of_lt hlt
    have hidx := pyIndex_natCast l (p + 1) hlt
    have hcast : ((p + 1 : Nat) : Int) = (p : Int) + 1 := by omega
    rw [hcast] at hidx
    refine Prod.ext ?_ ?_
    · rw [hidx]
      exact congrArg Except.ok (congrArg l.get (Fin.ext hmod.symm))
    · simp only [ImageList.mk.injEq]
      refine ⟨trivial, ?_, trivial⟩
      rw [hmod]; omega
  · next h =>
    have heq : p + 1 = l.length := by omega
    have hmod : (p + 1) % l.length = 0 := by rw [heq, Nat.mod_self]
    have hidx := pyIndex_natCast l 0 hpos
    rw [show ((0 : Nat) : Int) = (0 : Int) from rfl] at hidx
    refine Prod.ext ?_ ?_
    · rw [hidx]
      exact congrArg Except.ok (congrArg l.get (Fin.ext hmod.symm))
    · simp only [ImageList.mk.injEq]
      refine ⟨trivial, ?_, trivial⟩
      rw [hmod]; omega

theorem image_list_prev_at {α : Type} (l : List α) (p : Nat) (hp : p < l.length) :
    ImageList.prev ⟨l, (p : Int), l.length⟩ =
      (.ok (l.get ⟨(p + (l.length - 1)) % l.length, Nat.mod_lt _ (by omega)⟩),
       ⟨l, (((p + (l.length - 1)) % l.length : Nat) : Int), l.length⟩) := by
  have hpos : 0 < l.length := by omega
  simp only [ImageList.prev]
  split
  · next h =>
    have hp0 : p = 0 := by omega
    subst hp0
    have hlt : l.length - 1 < l.length := by omega
    have hmod : (0 + (l.length - 1)) % l.length = l.length - 1 := by
      rw [Nat.zero_add]; exact Nat.mod_eq_of_lt hlt
    have hidx := pyIndex_natCast l (l.length - 1) hlt
    have hcast : ((l.length - 1 : Nat) : Int) = (l.length : Int) - 1 := by omega
    rw [hcast] at hidx
    refine Prod.ext ?_ ?_
    · rw [hidx]
      exact congrArg Except.ok (congrArg l.get (Fin.ext hmod.symm))
    · simp only [ImageList.mk.injEq]
      refine ⟨trivial, ?_, trivial⟩
      rw [hmod]; omega
  · next h =>
    have hp1 : 1 ≤ p := by omega
    have hmod : (p + (l.length - 1)) % l.length = p - 1 := by
      have he : p + (l.length - 1) = (p - 1) + l.length := by omega
      rw [he, Nat.add_mod_right]
      exact Nat.mod_eq_of_lt (by omega)
    have hlt : p - 1 < l.length := by omega
    have hidx := pyIndex_natCast l (p - 1) hlt
    have hcast : ((p - 1 : Nat) : Int) = (p : Int) - 1 := by omega
    rw [hcast] at hidx
    refine Prod.ext ?_ ?_
    · rw [hidx]
      exact congrArg Except.ok (congrArg l.get (Fin.ext hmod.symm))
    · simp only [ImageList.mk.injEq]
      refine ⟨trivial, ?_, trivial⟩
      rw [hmod]; omega

theorem image_list_nextRun_at {α : Type} (l : List α) (k : Nat) :
    ∀ (p : Nat) (hp : p < l.length),
    ImageList.nextRun ⟨l, (p : Int), l.length⟩ k =
      (.ok (l.get ⟨(p + k + 1) % l.length, Nat.mod_lt _ (by omega)⟩),
       ⟨l, (((p + k + 1) % l.length : Nat) : Int), l.length⟩) := by
  induction k with
  | zero =>
    intro p hp
    have h := image_list_next_at l p hp
    simpa [ImageList.nextRun] using h
  | succ k ih =>
    intro p hp
    have hstep := image_list_next_at l p hp
    have hlt : (p + 1) % l.length < l.length := Nat.mod_lt _ (by omega)
    have h1 : ImageList.nextRun ⟨l, (p : Int), l.length⟩ (k + 1)
        = ImageList.nextRun ⟨l, (((p + 1) % l.length : Nat) : Int), l.length⟩ k := by
      rw [ImageList.nextRun, hstep]
    rw [h1, ih ((p + 1) % l.length) hlt]
    have hmod : ((p + 1) % l.length + k + 1) % l.length = (p + (k + 1) + 1) % l.length := by
      rw [Nat.add_assoc ((p + 1) % l.length) k 1, Nat.mod_add_mod]
      congr 1
      omega
    refine Prod.ext ?_ ?_
    · exact congrArg Except.ok (congrArg l.get (Fin.ext hmod))
    · simp only [ImageList.mk.injEq]
      exact ⟨trivial, by rw [hmod], trivial⟩

theorem image_list_prevRun_at {α : Type} (l : List α) (k : Nat) :
    ∀ (p : Nat) (hp : p < l.length),
    ImageList.prevRun ⟨l, (p : Int), l.length⟩ k =
      (.ok (l.get ⟨(p + (k + 1) * (l.length - 1)) % l.length, Nat.mod_lt _ (by omega)⟩),
       ⟨l, (((p + (k + 1) * (l.length - 1)) % l.length : Nat) : Int), l.length⟩) := by
  induction k with
  | zero =>
    intro p hp
    have h := image_list_prev_at l p hp
    have hone : p + (0 + 1) * (l.length - 1) = p + (l.length - 1) := by ring_nf
    simp only [hone]
    simpa [ImageList.prevRun] using h
  | succ k ih =>
    intro p hp
    have hstep := image_list_prev_at l p hp
    have hlt : (p + (l.length - 1)) % l.length < l.length := Nat.mod_lt _ (by omega)
    have h1 : ImageList.prevRun ⟨l, (p : Int), l.length⟩ (k + 1)
        = ImageList.prevRun ⟨l, (((p + (l.length - 1)) % l.length : Nat) : Int), l.length⟩ k := by
      rw [ImageList.prevRun, hstep]
    rw [h1, ih ((p + (l.length - 1)) % l.length) hlt]
    have hmod : ((p + (l.length - 1)) % l.length + (k + 1) * (l.length - 1)) % l.length
        = (p + (k + 1 + 1) * (l.length - 1)) % l.length := by
      rw [Nat.mod_add_mod]
      congr 1
      ring
    refine Prod.ext ?_ ?_
    · exact congrArg Except.ok (congrArg l.get (Fin.ext hmod))
    · simp only [ImageList.mk.injEq]
      exact ⟨trivial, by rw [hmod], trivial⟩

theorem image_list_init_next {α : Type} (l : List α) (h : l ≠ []) :
    ImageList.next (ImageList.init l) =
      (.ok (l.get ⟨0, List.length_pos.mpr h⟩), ⟨l, 0, l.length⟩) := by
  have hpos : 0 < l.length := List.length_pos.mpr h
  simp only [ImageList.init, ImageList.next]
  split
  · next hc =>
    have hidx := pyIndex_natCast l 0 hpos
    rw [show ((0 : Nat) : Int) = (0 : Int) from rfl] at hidx
    rw [show (-1 : Int) + 1 = (0 : Int) from rfl, hidx]
  · next hc =>
    omega

/-! ## Claims C2-C5: the ImageList navigator -/

/-- Claim C2 is false on the code: on the two-element list `[1, 2]`,
`prev()` immediately after construction decrements the position from -1 to
-2, and Python's negative indexing resolves `image_list[-2]` to the FIRST
element 1, not the last element 2; on the one-element list `[5]` the same
call raises IndexError instead of returning anything. -/
theorem c2_prev_after_init_counterexample :
    (ImageList.prev (ImageList.init [(1 : Int), 2])).1 = .ok 1 ∧
    (ImageList.prev (ImageList.init [(1 : Int), 2])).1 ≠ .ok 2 ∧
    (ImageList.prev (ImageList.init [(5 : Int)])).1 = .error .indexError := by
  refine ⟨by decide, by decide, by decide⟩

/-- Claim C2 (amended): for every image list with at least two elements,
`prev()` immediately after construction returns the element at index
`count - 2` (position -2 under Python negative indexing) without error,
and on a one-element list it raises IndexError. -/
theorem c2_prev_after_init_amended {α : Type} (l : List α) (h2 : 2 ≤ l.length) :
    (ImageList.prev (ImageList.init l)).1 = .ok (l.get ⟨l.length - 2, by omega⟩) ∧
    (ImageList.prev (ImageList.init l)).2.n = -2 ∧
    ∀ (x : α), (ImageList.prev (ImageList.init [x])).1 = .error .indexError := by
  have hcond : 0 ≤ pyNorm l.length (-2) ∧ pyNorm l.length (-2) < (l.length : Int) := by
    unfold pyNorm
    norm_num
    omega
  have hidx : pyIndex l (-2) = .ok (l.get ⟨l.length - 2, by omega⟩) := by
    rw [pyIndex, dif_pos hcond]
    have ht : (pyNorm l.length (-2)).toNat = l.length - 2 := by
      unfold pyNorm
      norm_num
      omega
    exact congrArg Except.ok (congrArg l.get (Fin.ext ht))
  have hbranch : (ImageList.prev (ImageList.init l)) = (pyIndex l (-2), ⟨l, -2, l.length⟩) := by
    simp only [ImageList.init, ImageList.prev]
    norm_num
  refine ⟨by rw [hbranch, hidx], by rw [hbranch], ?_⟩
  intro x
  have hcond1 : ¬ (0 ≤ pyNorm ([x].length) (-2) ∧ pyNorm ([x].length) (-2) < (([x].length : Nat) : Int)) := by
    unfold pyNorm
    norm_num
  have hidx1 : pyIndex [x] (-2) = .error .indexError := by
    rw [pyIndex, dif_neg hcond1]
  have hbranch1 : (ImageList.prev (ImageList.init [x])) = (pyIndex [x] (-2), ⟨[x], -2, 1⟩) := by
    simp only [ImageList.init, ImageList.prev]
    norm_num
  rw [hbranch1, hidx1]

/-- Claim C2 (amended), witness at the concrete list `[1, 2, 3]`: `prev()`
immediately after construction returns 2, the second-to-last element. -/
theorem c2_prev_after_init_amended_witness :
    2 ≤ ([(1 : Int), 2, 3]).length ∧
    (ImageList.prev (ImageList.init [(1 : Int), 2, 3])).1 = .ok 2 := by
  refine ⟨by decide, ?_⟩
  have h := (c2_prev_after_init_amended [(1 : Int), 2, 3] (by decide)).1
  simpa using h

/-- Claim C3: from the freshly constructed navigator, `next()` returns the
first element (landing on position 0, the wrap boundary), and `prev()` right
after it wraps to the last element rather than to position -1; when the list
has a single element this is exactly the element `next()` produced, so prev
undoes next except for the wrap. -/
theorem c3_next_prev_roundtrip {α : Type} (l : List α) (h : l ≠ []) :
    (ImageList.next (ImageList.init l)).1 = .ok (l.get ⟨0, List.length_pos.mpr h⟩) ∧
    (ImageList.prev ((ImageList.next (ImageList.init l)).2)).1 = .ok (l.getLast h) ∧
    (l.length = 1 →
      (ImageList.prev ((ImageList.next (ImageList.init l)).2)).1
        = (ImageList.next (ImageList.init l)).1) := by
  have hpos : 0 < l.length := List.length_pos.mpr h
  have hinit := image_list_init_next l h
  have hprev := image_list_prev_at l 0 hpos
  simp only [Nat.cast_zero] at hprev
  have hmod : (0 + (l.length - 1)) % l.length = l.length - 1 := by
    rw [Nat.zero_add]; exact Nat.mod_eq_of_lt (by omega)
  have hlast : l.getLast h = l.get ⟨l.length - 1, by omega⟩ := List.getLast_eq_get l h
  refine ⟨by rw [hinit], ?_, ?_⟩
  · rw [hinit]
    simp only [hprev]
    rw [hlast]
    exact congrArg Except.ok (congrArg l.get (Fin.ext hmod))
  · intro h1
    rw [hinit]
    simp only [hprev]
    have hz : (0 + (l.length - 1)) % l.length = 0 := by omega
    exact congrArg Except.ok (congrArg l.get (Fin.ext hz))

/-- Claim C3, witness at the concrete list `[7, 8]`: `next()` then `prev()`
from the initial state yields the last element 8. -/
theorem c3_next_prev_roundtrip_witness :
    ([(7 : Int), 8] ≠ []) ∧
    (ImageList.prev ((ImageList.next (ImageList.init [(7 : Int), 8])).2)).1 = .ok 8 := by
  have h := c3_next_prev_roundtrip [(7 : Int), 8] (by decide)
  exact ⟨by decide, by simpa using h.2.1⟩

/-- Claim C4 is false on the code: `next()` on a navigator over the empty
image list raises Python's index-out-of-range error; the code defines no
EmptyCollectionError. -/
theorem c4_next_empty_counterexample :
    (ImageList.next (ImageList.init ([] : List Int))).1 = .error .indexError ∧
    (ImageList.next (ImageList.init ([] : List Int))).1 ≠ .error .emptyCollectionError := by
  exact ⟨by decide, by decide⟩

/-- Claim C4 (amended): `next()` on a navigator built over an empty image
list fails with an index-out-of-range error (IndexError), since the wrap
branch subscripts `image_list[0]` on the empty list. -/
theorem c4_next_empty_index_error {α : Type} :
    (ImageList.next (ImageList.init ([] : List α))).1 = .error .indexError := by
  simp [ImageList.init, ImageList.next, pyIndex, pyNorm]

/-- Claim C5: with the first element current (the state `Data.__init__`
establishes by its initial `next()` call), N consecutive `next()` calls
return the first element again, and N consecutive `prev()` calls from the
same start also return the starting element. -/
theorem c5_image_list_cycle {α : Type} (l : List α) (h : l ≠ []) :
    (ImageList.nextRun ((ImageList.next (ImageList.init l)).2) (l.length - 1)).1
      = .ok (l.get ⟨0, List.length_pos.mpr h⟩) ∧
    (ImageList.prevRun ((ImageList.next (ImageList.init l)).2) (l.length - 1)).1
      = .ok (l.get ⟨0, List.length_pos.mpr h⟩) := by
  have hpos : 0 < l.length := List.length_pos.mpr h
  have hinit := image_list_init_next l h
  have hnr := image_list_nextRun_at l (l.length - 1) 0 hpos
  have hpr := image_list_prevRun_at l (l.length - 1) 0 hpos
  simp only [Nat.cast_zero] at hnr hpr
  have hmodn : (0 + (l.length - 1) + 1) % l.length = 0 := by
    have he : 0 + (l.length - 1) + 1 = l.length := by omega
    rw [he, Nat.mod_self]
  have hmodp : (0 + ((l.length - 1) + 1) * (l.length - 1)) % l.length = 0 := by
    have he : (l.length - 1) + 1 = l.length := by omega
    rw [Nat.zero_add, he, Nat.mul_mod_right]
  constructor
  · rw [hinit]
    simp only [hnr]
    exact congrArg Except.ok (congrArg l.get (Fin.ext hmodn))
  · rw [hinit]
    simp only [hpr]
    exact congrArg Except.ok (congrArg l.get (Fin.ext hmodp))

/-- Claim C5, witness at the concrete list `[10, 20]` (N = 2): two `next()`
calls from the first-element-current state return 10 again, and so do two
`prev()` calls. -/
theorem c5_image_list_cycle_witness :
    ([(10 : Int), 20] ≠ []) ∧
    (ImageList.nextRun ((ImageList.next (ImageList.init [(10 : Int), 20])).2) 1).1 = .ok 10 ∧
    (ImageList.prevRun ((ImageList.next (ImageList.init [(10 : Int), 20])).2) 1).1 = .ok 10 := by
  have h := c5_image_list_cycle [(10 : Int), 20] (by decide)
  exact ⟨by decide, by simpa using h.1, by simpa using h.2⟩

/-! ## Claims C1, C6, C10: category color assignment -/

/-- Claim C1: the category color assignment is deterministic.  The mapping
returned by `get_categories` does not depend on the prior PRNG state (the
internal `seed(42)` fixes it) nor on the OS entropy drawn by the closing
`seed(None)`; two runs on the same record therefore produce identical
mappings, and the textually identical `App.get_categories` of app.py agrees
with it. -/
theorem c1_get_categories_deterministic (instances : CocoInstances)
    (r1 r2 : RandomState) (e1 e2 : Nat) :
    (get_categories instances r1 e1).1 = (get_categories instances r2 e2).1 ∧
    (App_get_categories instances r1 e1).1 = (get_categories instances r2 e2).1 :=
  ⟨rfl, rfl⟩

theorem zip_take_self {α β : Type} (l : List α) (m : List β) :
    List.zip l (m.take l.length) = List.zip l m := by
  induction l generalizing m with
  | nil => simp
  | cons a l ih =>
    cases m with
    | nil => simp
    | cons b m =>
      simp only [List.length_cons, List.take_succ_cons, List.zip_cons_cons]
      rw [ih]

/-- Claim C6: for records with at most 80 categories, `get_categories`
computes exactly the assignment described by the specification: 80 evenly
spaced hues at saturation 1 and value 1, standard HSV-to-RGB conversion with
each channel truncated to an integer, a shuffle under the fixed seed 42
followed by a reseed from OS entropy, and the category id/name pairs in
declaration order zipped with the first `len(categoryList)` shuffled colors. -/
theorem c6_get_categories_follows_spec (instances : CocoInstances)
    (r : RandomState) (entropy : Nat) (h : instances.categories.length ≤ 80) :
    get_categories instances r entropy = specAssignColors instances.categories entropy := by
  simp only [get_categories, specAssignColors, List.map_map, zip_take_self]
  rfl

/-- Claim C6, witness at a concrete two-category record. -/
theorem c6_get_categories_follows_spec_witness :
    (⟨[], [], [⟨7, "cat"⟩, ⟨9, "dog"⟩]⟩ : CocoInstances).categories.length ≤ 80 ∧
    get_categories ⟨[], [], [⟨7, "cat"⟩, ⟨9, "dog"⟩]⟩ ⟨123⟩ 5
      = specAssignColors (⟨[], [], [⟨7, "cat"⟩, ⟨9, "dog"⟩]⟩ : CocoInstances).categories 5 :=
  ⟨by decide, c6_get_categories_follows_spec ⟨[], [], [⟨7, "cat"⟩, ⟨9, "dog"⟩]⟩ ⟨123⟩ 5 (by decide)⟩

theorem listSwap_length {α : Type} (xs : List α) (i j : Nat) :
    (listSwap xs i j).length = xs.length := by
  unfold listSwap
  split
  · simp
  · rfl

theorem shuffleSteps_length {α : Type} (k : Nat) :
    ∀ (s : Nat) (ys : List α), ((shuffleSteps k s ys).1).length = ys.length := by
  induction k with
  | zero => intro s ys; rfl
  | succ k ih =>
    intro s ys
    rw [shuffleSteps, ih]
    exact listSwap_length ys (k + 1) _

theorem pyShuffle_length {α : Type} (xs : List α) (r : RandomState) :
    (pyShuffle xs r).1.length = xs.length := by
  unfold pyShuffle
  exact shuffleSteps_length _ _ _

theorem mem_zip_fst_take {α β : Type} (l : List α) (m : List β) (p : α × β)
    (h : p ∈ List.zip l m) : p.1 ∈ l.take m.length := by
  induction l generalizing m with
  | nil => simp [List.zip] at h
  | cons a l ih =>
    cases m with
    | nil => simp at h
    | cons b m =>
      simp only [List.zip_cons_cons, List.mem_cons] at h
      rcases h with h | h
      · simp [h]
      · simp only [List.length_cons, List.take_succ_cons, List.mem_cons]
        exact Or.inr (ih m h)

theorem pyDictInsert_keys {α : Type} (d : List (Int × α)) (k : Int) (v : α) (p : Int × α)
    (h : p ∈ pyDictInsert d k v) : p.1 = k ∨ ∃ q ∈ d, p.1 = q.1 := by
  unfold pyDictInsert at h
  split at h
  · next hc =>
    rcases List.mem_map.mp h with ⟨q, hq, he⟩
    by_cases hqk : (q.1 == k) = true
    · rw [if_pos hqk] at he
      left
      rw [← he]
    · rw [if_neg hqk] at he
      right
      exact ⟨q, hq, by rw [← he]⟩
  · next hc =>
    rcases List.mem_append.mp h with h | h
    · right
      exact ⟨p, h, rfl⟩
    · left
      have : p = (k, v) := by simpa using h
      rw [this]

theorem pyDict_foldl_keys {α : Type} (l : List (Int × α)) (p : Int × α) :
    ∀ (d : List (Int × α)),
      p ∈ l.foldl (fun d q => pyDictInsert d q.1 q.2) d →
      (∃ q ∈ d, p.1 = q.1) ∨ (∃ q ∈ l, p.1 = q.1) := by
  induction l with
  | nil =>
    intro d hd
    left
    exact ⟨p, hd, rfl⟩
  | cons a l ih =>
    intro d hd
    simp only [List.foldl_cons] at hd
    rcases ih (pyDictInsert d a.1 a.2) hd with ⟨q, hq, he⟩ | h2
    · rcases pyDictInsert_keys d a.1 a.2 q hq with h1 | ⟨q2, hq2, he2⟩
      · right
        exact ⟨a, List.mem_cons_self a l, by rw [he, h1]⟩
      · left
        exact ⟨q2, hq2, by rw [he, he2]⟩
    · right
      rcases h2 with ⟨q, hq, he⟩
      exact ⟨q, List.mem_cons_of_mem a hq, he⟩

theorem pyDict_keys {α : Type} (l : List (Int × α)) (p : Int × α) (h : p ∈ pyDict l) :
    ∃ q ∈ l, p.1 = q.1 := by
  rcases pyDict_foldl_keys l p [] h with ⟨q, hq, _⟩ | h2
  · simp at hq
  · exact h2

theorem pyDictGet_eq_none {α : Type} (d : List (Int × α)) (k : Int)
    (h : ∀ q ∈ d, q.1 ≠ k) : pyDictGet d k = none := by
  unfold pyDictGet
  rw [List.find?_eq_none.mpr]
  · rfl
  · intro x hx
    simp only [beq_iff_eq]
    exact h x hx

theorem get_categories_keys (instances : CocoInstances) (r : RandomState) (entropy : Nat)
    (q : Int × (String × PyColor)) (hq : q ∈ (get_categories instances r entropy).1) :
    q.1 ∈ (instances.categories.take 80).map (fun x => x.id) := by
  have hlen : ((pyShuffle ((((List.range 80).map
      (fun x : Nat => ((x : ℚ) / 80, (1 : ℚ), (1 : ℚ)))).map
        (fun x => hsv_to_rgb x.1 x.2.1 x.2.2)).map
        (fun x => (pyInt (x.1 * 255), pyInt (x.2.1 * 255), pyInt (x.2.2 * 255))))
      (pySeed 42)).1).length = 80 := by
    rw [pyShuffle_length]
    simp only [List.length_map, List.length_range]
  rcases pyDict_keys _ q hq with ⟨q2, hq2, he⟩
  rcases List.mem_map.mp hq2 with ⟨z, hz, hez⟩
  have hz1 : z.1 ∈ (instances.categories.map (fun c => (c.id, c.name))).take 80 := by
    have := mem_zip_fst_take _ _ z hz
    rwa [hlen] at this
  rw [← List.map_take] at hz1
  rcases List.mem_map.mp hz1 with ⟨c, hc, hec⟩
  rw [he, ← hez]
  simp only [List.mem_map]
  exact ⟨c, hc, by rw [← hec]⟩

/-- Claim C10: when the record declares more than 80 categories, the zip with
the 80-color palette silently truncates: the mapping contains entries only
for the first 80 categories in declaration order, and looking up the style of
any later category (whose id is not among the first 80) returns nothing -
the `self.categories[i]` lookup in compose_image raises KeyError. -/
theorem c10_categories_truncated_at_80 (instances : CocoInstances) (r : RandomState)
    (entropy : Nat) (c : CocoCategory) (hc : c ∈ instances.categories.drop 80)
    (hid : c.id ∉ (instances.categories.take 80).map (fun x => x.id)) :
    pyDictGet (get_categories instances r entropy).1 c.id = none ∧
    pyDictGetExc (get_categories instances r entropy).1 c.id = .error .keyError ∧
    ∀ q ∈ (get_categories instances r entropy).1,
      q.1 ∈ (instances.categories.take 80).map (fun x => x.id) := by
  have hnone : pyDictGet (get_categories instances r entropy).1 c.id = none := by
    apply pyDictGet_eq_none
    intro q hq he
    exact hid (he ▸ get_categories_keys instances r entropy q hq)
  refine ⟨hnone, ?_, fun q hq => get_categories_keys instances r entropy q hq⟩
  unfold pyDictGetExc
  rw [hnone]

/-- Claim C10, witness at a record with 81 categories with ids 0..80: the
81st category (id 80) is absent from the color mapping. -/
theorem c10_categories_truncated_at_80_witness :
    ((⟨80, "c"⟩ : CocoCategory) ∈
        (⟨[], [], (List.range 81).map (fun i => ⟨(i : Int), "c"⟩)⟩ : CocoInstances).categories.drop 80 ∧
      (⟨80, "c"⟩ : CocoCategory).id ∉
        ((⟨[], [], (List.range 81).map (fun i => ⟨(i : Int), "c"⟩)⟩ : CocoInstances).categories.take 80).map
          (fun x => x.id)) ∧
    pyDictGet (get_categories ⟨[], [], (List.range 81).map (fun i => ⟨(i : Int), "c"⟩)⟩ ⟨0⟩ 0).1
      (⟨80, "c"⟩ : CocoCategory).id = none :=
  ⟨⟨by decide, by decide⟩,
    (c10_categories_truncated_at_80 ⟨[], [], (List.range 81).map (fun i => ⟨(i : Int), "c"⟩)⟩
      ⟨0⟩ 0 ⟨80, "c"⟩ (by decide) (by decide)).1⟩


/-! ## Claim C8: the selection filter -/

theorem mem_enum_get {α : Type} (l : List α) (i : Nat) (a : α) :
    (i, a) ∈ l.enum ↔ ∃ (hi : i < l.length), l.get ⟨i, hi⟩ = a := by
  rw [List.mem_enum_iff_getElem?]
  constructor
  · intro h
    have hlt : i < l.length := by
      by_contra hge
      rw [List.getElem?_eq_none (by omega)] at h
      exact Option.noConfusion h
    refine ⟨hlt, ?_⟩
    rw [List.getElem?_eq_getElem hlt] at h
    injection h with h
  · rintro ⟨hi, he⟩
    show l[i]? = some a
    rw [List.getElem?_eq_getElem hi]
    exact congrArg some (((List.get_eq_getElem l ⟨i, hi⟩).symm).trans he)

/-- Claim C8: the ignore set of `Controller.update_img` is empty when no
selection is active, and otherwise consists exactly of the object indices
outside the selection; `select_category` expands a selected category index to
exactly the objects of that category, and `select_object` reflects a selected
object back to exactly its category's index (bidirectional consistency).  On
the claim's scenario - objects A, B, C with categories 1, 2, 1, so the
category listbox holds [1, 2] - selecting category 1 yields objects {A, C}
and the ignore set {B}, and selecting object B yields the category selection
{index 1}, which is category id 2. -/
theorem c8_selection_filter :
    (∀ (l : List Int), updateImgIgnore l none = []) ∧
    (∀ (l : List Int) (sel : List Nat) (i : Nat),
      i ∈ updateImgIgnore l (some sel) ↔ i < l.length ∧ i ∉ sel) ∧
    (∀ (cats objs : List Int) (ci : Nat) (hci : ci < cats.length) (r : List Nat),
      selectCategoryObjs cats objs [ci] = .ok r →
      ∀ (i : Nat), i ∈ r ↔ ∃ (hi : i < objs.length), objs.get ⟨i, hi⟩ = cats.get ⟨ci, hci⟩) ∧
    (∀ (cats objs : List Int) (oi : Nat) (hoi : oi < objs.length) (r : List Nat),
      selectObjectCats cats objs [oi] = .ok r →
      ∀ (j : Nat), j ∈ r ↔ ∃ (hj : j < cats.length), cats.get ⟨j, hj⟩ = objs.get ⟨oi, hoi⟩) ∧
    (selectCategoryObjs (sortedUnique [1, 2, 1]) [1, 2, 1] [0] = .ok [0, 2] ∧
     updateImgIgnore [1, 2, 1] (some [0, 2]) = [1] ∧
     selectObjectCats (sortedUnique [1, 2, 1]) [1, 2, 1] [1] = .ok [1] ∧
     (sortedUnique [1, 2, 1]).get? 1 = some 2) := by
  refine ⟨fun l => rfl, ?_, ?_, ?_, by decide⟩
  · intro l sel i
    simp [updateImgIgnore, List.mem_filter, List.mem_range]
  · intro cats objs ci hci r hr i
    have hidx := pyIndex_natCast cats ci hci
    simp only [selectCategoryObjs, List.foldlM_cons, List.foldlM_nil, hidx, List.nil_append,
      bind_pure, Except.ok.injEq] at hr
    subst hr
    rw [List.mem_filterMap]
    constructor
    · rintro ⟨io, hio, hf⟩
      obtain ⟨i1, o⟩ := io
      by_cases hc : cats.get ⟨ci, hci⟩ = o
      · rw [if_pos hc] at hf
        injection hf with hf
        subst hf
        obtain ⟨hi, hget⟩ := (mem_enum_get objs i1 o).mp hio
        exact ⟨hi, hget.trans hc.symm⟩
      · rw [if_neg hc] at hf
        exact absurd hf (by simp)
    · rintro ⟨hi, he⟩
      exact ⟨(i, objs.get ⟨i, hi⟩), (mem_enum_get objs i _).mpr ⟨hi, rfl⟩, by rw [if_pos he.symm]⟩
  · intro cats objs oi hoi r hr j
    have hidx := pyIndex_natCast objs oi hoi
    simp only [selectObjectCats, List.foldlM_cons, List.foldlM_nil, hidx, List.nil_append,
      bind_pure, Except.ok.injEq] at hr
    subst hr
    rw [List.mem_filterMap]
    constructor
    · rintro ⟨ic, hic, hf⟩
      obtain ⟨j1, c⟩ := ic
      by_cases hc : objs.get ⟨oi, hoi⟩ = c
      · rw [if_pos hc] at hf
        injection hf with hf
        subst hf
        obtain ⟨hj, hget⟩ := (mem_enum_get cats j1 c).mp hic
        exact ⟨hj, hget.trans hc.symm⟩
      · rw [if_neg hc] at hf
        exact absurd hf (by simp)
    · rintro ⟨hj, he⟩
      exact ⟨(j, cats.get ⟨j, hj⟩), (mem_enum_get cats j _).mpr ⟨hj, rfl⟩, by rw [if_pos he.symm]⟩

/-- Claim C8, witness: on the scenario's data, object index 1 (object B) is
in the ignore set produced by selecting objects {0, 2} (category 1). -/
theorem c8_selection_filter_witness :
    (1 : Nat) ∈ updateImgIgnore [1, 2, 1] (some [0, 2]) :=
  (c8_selection_filter.2.1 [1, 2, 1] [0, 2] 1).mpr (by decide)

/-! ## Claims C7 and C9: composition -/

theorem lookupColors_get (cats : List (Int × (String × PyColor))) :
    ∀ (ids : List Int) (ncs : List (String × PyColor)), lookupColors cats ids = .ok ncs →
    ∀ (i : Nat) (k : Int), ids.get? i = some k →
    ∃ v, pyDictGet cats k = some v ∧ ncs.get? i = some v := by
  intro ids
  induction ids with
  | nil =>
    intro ncs h i k hk
    simp at hk
  | cons a rest ih =>
    intro ncs h i k hk
    cases hga : pyDictGet cats a with
    | none =>
      rw [lookupColors, hga] at h
      exact absurd h (by simp)
    | some v =>
      rw [lookupColors, hga] at h
      cases hrest : lookupColors cats rest with
      | error e =>
        rw [hrest] at h
        exact absurd h (by simp)
      | ok vs =>
        rw [hrest] at h
        injection h with h
        subst h
        cases i with
        | zero =>
          simp only [List.get?_cons_zero, Option.some.injEq] at hk
          subst hk
          exact ⟨v, hga, rfl⟩
        | succ i =>
          simp only [List.get?_cons_succ] at hk ⊢
          exact ih vs hrest i k hk

theorem draw_bboxes_mem (ts : String → Int → ℚ × ℚ) (objects : List CocoAnnotation)
    (labels : Bool) (ncs : List (String × PyColor)) (ignore : List Nat)
    (width label_size : Int) (i : Nat) (obj : CocoAnnotation) (c : String × PyColor)
    (hobj : objects.get? i = some obj) (hc : ncs.get? i = some c) (hig : ¬ i ∈ ignore) :
    DrawOp.rectOutline (obj.bbox.1, obj.bbox.2.1, obj.bbox.1 + obj.bbox.2.2.1,
        obj.bbox.2.1 + obj.bbox.2.2.2) c.2 width
      ∈ draw_bboxes ts objects labels ncs ignore width label_size := by
  have hb : (objects.map (fun obj =>
      (obj.bbox.1, obj.bbox.2.1, obj.bbox.1 + obj.bbox.2.2.1, obj.bbox.2.1 + obj.bbox.2.2.2))).get? i
      = some (obj.bbox.1, obj.bbox.2.1, obj.bbox.1 + obj.bbox.2.2.1, obj.bbox.2.1 + obj.bbox.2.2.2) := by
    rw [List.get?_map, hobj]
    rfl
  have hzip : ((ncs.zip (objects.map (fun obj =>
      (obj.bbox.1, obj.bbox.2.1, obj.bbox.1 + obj.bbox.2.2.1, obj.bbox.2.1 + obj.bbox.2.2.2))))[i]?)
      = some (c, (obj.bbox.1, obj.bbox.2.1, obj.bbox.1 + obj.bbox.2.2.1, obj.bbox.2.1 + obj.bbox.2.2.2)) := by
    rw [List.getElem?_zip_eq_some]
    rw [← List.get?_eq_getElem?, ← List.get?_eq_getElem?]
    exact ⟨hc, hb⟩
  have henum : (i, (c, (obj.bbox.1, obj.bbox.2.1, obj.bbox.1 + obj.bbox.2.2.1,
      obj.bbox.2.1 + obj.bbox.2.2.2)))
      ∈ (ncs.zip (objects.map (fun obj =>
        (obj.bbox.1, obj.bbox.2.1, obj.bbox.1 + obj.bbox.2.2.1, obj.bbox.2.1 + obj.bbox.2.2.2)))).enum :=
    List.mem_enum_iff_getElem?.mpr hzip
  unfold draw_bboxes
  rw [List.mem_flatten]
  refine ⟨if i ∈ ignore then []
      else DrawOp.rectOutline (obj.bbox.1, obj.bbox.2.1, obj.bbox.1 + obj.bbox.2.2.1,
          obj.bbox.2.1 + obj.bbox.2.2.2) c.2 width ::
        (if labels then labelOps ts c (obj.bbox.1, obj.bbox.2.1, obj.bbox.1 + obj.bbox.2.2.1,
          obj.bbox.2.1 + obj.bbox.2.2.2) label_size else []),
    List.mem_map_of_mem _ henum, ?_⟩
  rw [if_neg hig]
  exact List.mem_cons_self _ _

/-- Claim C7: whenever `compose_image` succeeds with boxes enabled, every
object outside the ignore set gets an outlined rectangle at corners
`(x, y, x + width, y + height)` derived from its bbox `[x, y, width, height]`,
drawn in that object's category color at the configured outline width, on the
composed image. -/
theorem c7_compose_draws_bbox_rect (fs : String → Option PyImage)
    (ts : String → Int → ℚ × ℚ) (d : DataState) (image : Int × String)
    (labels_on masks_on : Bool) (ignoreArg : Option (List Nat))
    (width alpha label_size : Int)
    (h : (Data.compose_image fs ts d image true labels_on masks_on ignoreArg
      width alpha label_size).1 = .ok ())
    (i : Nat) (obj : CocoAnnotation)
    (hobj : (imageObjects d.instances image.1).get? i = some obj)
    (hig : ¬ i ∈ ignoreArg.getD [])
    (c : String × PyColor) (hc : pyDictGet d.categories obj.category_id = some c) :
    ∃ composed,
      (Data.compose_image fs ts d image true labels_on masks_on ignoreArg
        width alpha label_size).2.current_composed_image = some composed ∧
      DrawOp.rectOutline (obj.bbox.1, obj.bbox.2.1, obj.bbox.1 + obj.bbox.2.2.1,
        obj.bbox.2.1 + obj.bbox.2.2.2) c.2 width ∈ composed.ops := by
  cases hfs : fs (os_path_join d.image_dir image.2) with
  | none =>
    simp only [Data.compose_image, hfs] at h
    exact absurd h (by simp)
  | some img_open =>
    simp only [Data.compose_image, hfs] at h ⊢
    cases hlc : lookupColors d.categories
        (List.map (fun obj => obj.category_id) (imageObjects d.instances image.1)) with
    | error e =>
      simp only [hlc] at h
      exact absurd h (by simp)
    | ok ncs =>
      simp only [hlc] at h ⊢
      cases hm : (if masks_on then
          draw_masks (imageObjects d.instances image.1) ncs (ignoreArg.getD []) alpha
        else .ok []) with
      | error e =>
        simp only [hm] at h
        exact absurd h (by simp)
      | ok mask_ops =>
        simp only [hm] at h ⊢
        refine ⟨_, rfl, ?_⟩
        apply List.mem_append_right
        have hk : ((imageObjects d.instances image.1).map
            (fun obj => obj.category_id)).get? i = some obj.category_id := by
          rw [List.get?_map, hobj]
          rfl
        obtain ⟨v, hv, hncs⟩ := lookupColors_get d.categories _ ncs hlc i obj.category_id hk
        rw [hc] at hv
        injection hv with hv
        subst hv
        exact draw_bboxes_mem ts _ labels_on ncs (ignoreArg.getD []) width label_size i obj c
          hobj hncs hig

set_option maxRecDepth 8000 in
/-- Claim C7, witness on the claim's scenario: record with one image
`(1, "a.jpg")`, one category `(7, "cat")`, one annotation with bbox
`[10, 10, 50, 50]`, configuration `show_boxes = true`, `show_masks = false`,
`show_labels = false`, `box_width = 2`, empty ignore set: the composed image
contains a rectangle outline at corners `(10, 10)-(60, 60)` in category 7's
assigned color. -/
theorem c7_compose_draws_bbox_rect_witness :
    ((Data.compose_image exFs7 exTs exD7 (1, "a.jpg") true false false none 2 128 15).1
        = .ok ()
      ∧ (imageObjects exD7.instances 1).get? 0 = some exAnn7
      ∧ ¬ (0 : Nat) ∈ (none : Option (List Nat)).getD []
      ∧ pyDictGet exD7.categories 7 = some exStyle7) ∧
    ∃ composed,
      (Data.compose_image exFs7 exTs exD7 (1, "a.jpg") true false false none 2 128
        15).2.current_composed_image = some composed ∧
      DrawOp.rectOutline (10, 10, 60, 60) exStyle7.2 2 ∈ composed.ops := by
  have happ := c7_compose_draws_bbox_rect exFs7 exTs exD7 (1, "a.jpg") false false none 2 128 15
    (by decide) 0 exAnn7 (by decide) (by decide) exStyle7 rfl
  refine ⟨⟨by decide, by decide, by decide, rfl⟩, ?_⟩
  norm_num [exAnn7] at happ
  exact happ

/-- Claim C9 (amended): when the navigator advances to an entry whose backing
file cannot be opened, `next_image` fails with the file-open error
(FileNotFoundError), the cursor and `current_image` are already advanced to
the new entry - the cursor update precedes composition - and the previous
composed image remains the current composite. -/
theorem c9_next_image_missing_file (fs : String → Option PyImage)
    (ts : String → Int → ℚ × ℚ) (d : DataState)
    (bboxes_on labels_on masks_on : Bool) (ignoreArg : Option (List Nat))
    (width alpha label_size : Int) (img : Int × String)
    (images1 : ImageList (Int × String))
    (hnext : d.images.next = (.ok img, images1))
    (hmiss : fs (os_path_join d.image_dir img.2) = none) :
    Data.next_image fs ts d bboxes_on labels_on masks_on ignoreArg width alpha label_size
      = (.error .fileNotFoundError, { d with images := images1, current_image := img }) ∧
    ({ d with images := images1, current_image := img } : DataState).current_composed_image
      = d.current_composed_image := by
  constructor
  · simp only [Data.next_image, hnext, Data.compose_image, hmiss]
  · rfl

/-- Claim C9 is false on the code as stated: over the record `exInstances9`
(two images, only the first with a backing file) the state `exD9` - startup
plus one successful composition, cursor on image 1 - is reproduced, and
`next_image` then fails with the file-open error while the cursor has moved
from position 0 to 1 and the current image from `(1, "a")` to `(2, "b")`:
the navigation state is NOT unchanged; only the previous composite is
retained. -/
theorem c9_next_image_missing_file_counterexample :
    ((Data.init "imgs" exInstances9 ⟨0⟩ 0).map (fun d0 =>
        (Data.compose_image exFs9 exTs d0 d0.current_image true true true none 3 128
          15).2)
      = .ok exD9) ∧
    Data.next_image exFs9 exTs exD9 true true true none 3 128 15
      = (.error .fileNotFoundError,
         { exD9 with images := ⟨[(1, "a"), (2, "b")], 1, 2⟩, current_image := (2, "b") }) ∧
    ({ exD9 with images := ⟨[(1, "a"), (2, "b")], 1, 2⟩, current_image := (2, "b") } : DataState).images.n ≠ exD9.images.n ∧
    ({ exD9 with images := ⟨[(1, "a"), (2, "b")], 1, 2⟩, current_image := (2, "b") } : DataState).current_image ≠ exD9.current_image ∧
    ({ exD9 with images := ⟨[(1, "a"), (2, "b")], 1, 2⟩, current_image := (2, "b") } : DataState).current_composed_image
      = exD9.current_composed_image := by
  exact ⟨by decide, by decide, by decide, by decide, rfl⟩

/-- Claim C9 (amended), witness at the concrete state `exD9`: advancing to
image `(2, "b")` whose file is missing fails with the file-open error while
the state advances to that entry. -/
theorem c9_next_image_missing_file_witness :
    (exD9.images.next = (.ok (2, "b"), ⟨[(1, "a"), (2, "b")], 1, 2⟩) ∧
     exFs9 (os_path_join exD9.image_dir "b") = none) ∧
    Data.next_image exFs9 exTs exD9 true true true none 3 128 15
      = (.error .fileNotFoundError,
         { exD9 with images := ⟨[(1, "a"), (2, "b")], 1, 2⟩, current_image := (2, "b") }) :=
  ⟨⟨by decide, by decide⟩,
    (c9_next_image_missing_file exFs9 exTs exD9 true true true none 3 128 15 (2, "b")
      ⟨[(1, "a"), (2, "b")], 1, 2⟩ (by decide) (by decide)).1⟩
